import Mathlib

/-!
Shallow embedding of the codon / amino-acid translator of
`codon_aa_converter.py` (and the single-to-three-letter converter of
`hgvsp_short2long.py`), together with theorems settling the specified
properties of the translator.

Python strings are modelled by Lean `String`; a Python `dict(zip(ks, vs))`
with unique keys is modelled by first-match lookup over `ks.zip vs`;
`sys.exit(1)` after a message on stderr is modelled by `Except.error`.
-/

namespace CodonAA

/-- Python `str.upper()` restricted to ASCII, as used on the ASCII inputs of
the script: uppercase every character. -/
def pyUpper (s : String) : String := String.mk (s.data.map Char.toUpper)

/-- Python `str.title()` on ASCII strings: a letter is uppercased when the
previous character is not a letter, lowercased otherwise. -/
def pyTitleAux : Bool → List Char → List Char
  | _, [] => []
  | prevAlpha, c :: cs =>
    if c.isAlpha then
      (if prevAlpha then c.toLower else c.toUpper) :: pyTitleAux true cs
    else
      c :: pyTitleAux false cs

/-- Python `str.title()` (see `pyTitleAux`). -/
def pyTitle (s : String) : String := String.mk (pyTitleAux false s.data)

/-- Python `str.replace("U", "T")`: since the pattern is one character this
is a character map. -/
def pyReplaceUT (s : String) : String :=
  String.mk (s.data.map (fun c => if c == 'U' then 'T' else c))

/-- Python `str.split(sep)` helper for a one-character separator:
accumulate the current chunk. -/
def splitCharAux (sep : Char) : List Char → List Char → List String
  | [], acc => [String.mk acc]
  | c :: cs, acc =>
    if c == sep then String.mk acc :: splitCharAux sep cs []
    else splitCharAux sep cs (acc ++ [c])

/-- Python `input_string.split(",")`; on the empty string it yields one
empty token, like Python. -/
def pySplitComma (s : String) : List String := splitCharAux ',' s.data []

/-- Python `str.split()` on a string whose words are separated by single
spaces. -/
def pySplitSpace (s : String) : List String := splitCharAux ' ' s.data []

/-- Python `",".join(xs)`. -/
def joinComma : List String → String
  | [] => ""
  | [x] => x
  | x :: y :: xs => x ++ "," ++ joinComma (y :: xs)

/-- Lookup in a Python dict built as `dict(zip(keys, vals))` with unique
keys: the value paired with the first matching key, `.get(k, None)` style. -/
def dictGet (d : List (String × String)) (k : String) : Option String :=
  (d.find? (fun p => p.1 == k)).map (fun p => p.2)

/-- Source global `single_letter = list("ACDEFGHIKLMNPQRSTVWY*")`. -/
def single_letter : List String :=
  "ACDEFGHIKLMNPQRSTVWY*".data.map (fun c => String.mk [c])

/-- Source global `three_letter = ("Ala Cys ... Ter").split()`. -/
def three_letter : List String :=
  pySplitSpace ("Ala Cys Asp Glu Phe Gly His Ile Lys Leu Met Asn Pro Gln "
    ++ "Arg Ser Thr Val Trp Tyr Ter")

/-- `convert_aa` from `codon_aa_converter.py`: single-letter to three-letter
amino-acid code and back, with title-case canonicalization; errors exit. -/
def convert_aa (query : String) : Except String String :=
  if query.length == 1 then
    match dictGet (single_letter.zip three_letter) (pyTitle query) with
    | some r => Except.ok r
    | none => Except.error "Error: cannot convert the query to an AA."
  else if query.length == 3 then
    match dictGet (three_letter.zip single_letter) (pyTitle query) with
    | some r => Except.ok r
    | none => Except.error "Error: cannot convert the query to an AA."
  else
    Except.error "Error: the query does not seem to be an appropriate amino acid string."

/-- `bases = "TCAG"` inside `translate`. -/
def bases : List Char := "TCAG".data

/-- `codons = [a + b + c for a in bases for b in bases for c in bases]`. -/
def codons : List String :=
  bases.flatMap (fun a => bases.flatMap (fun b => bases.map (fun c => String.mk [a, b, c])))

/-- The `amino_acids` literal inside `translate`. -/
def amino_acids : String :=
  "FFLLSSSSYY**CC*WLLLLPPPPHHQQRRRRIIIMTTTTNNKKSSRR"
    ++ "VVVVAAAADDEEGGGG"

/-- `codon_table = dict(zip(codons, amino_acids))`. -/
def codon_table : List (String × String) :=
  codons.zip (amino_acids.data.map (fun c => String.mk [c]))

/-- The `defaultdict(list)` built in the `codon` direction of `translate`:
append `codon` to the entry of `aa`, creating it at the end on first use,
which matches Python dict insertion order. -/
def addCodon : List (String × List String) → String → String → List (String × List String)
  | [], aa, c => [(aa, [c])]
  | (k, v) :: rest, aa, c =>
    if k == aa then (k, v ++ [c]) :: rest else (k, v) :: addCodon rest aa c

/-- The finished inverse lookup `lookup[aa] = [codons...]`, built by folding
over `codon_table.items()` in insertion order. -/
def aaLookup : List (String × List String) :=
  codon_table.foldl (fun acc p => addCodon acc p.2 p.1) []

/-- `lookup.get(query, None)`. -/
def lookupGet (aa : String) : Option (List String) :=
  (aaLookup.find? (fun p => p.1 == aa)).map (fun p => p.2)

/-- The `direction == "aa"` branch of `translate`: U-to-T normalization, then
codon-table lookup, returning the single- and three-letter codes. -/
def translate_aa (query : String) : Except String (String × String) :=
  let query := pyReplaceUT query
  match dictGet codon_table query with
  | none => Except.error "Error: Can not translate codon to AA!"
  | some res =>
    match convert_aa res with
    | Except.ok three => Except.ok (res, three)
    | Except.error e => Except.error e

/-- The `direction == "codon"` branch of `translate`: look up the codon list
of a single-letter code directly, otherwise convert the code first; the
result is comma-joined. -/
def translate_codon (query : String) : Except String String :=
  match
    (if query.length == 1 then Except.ok (lookupGet query)
     else match convert_aa query with
          | Except.ok a => Except.ok (lookupGet a)
          | Except.error e => Except.error e : Except String (Option (List String)))
  with
  | Except.ok none => Except.error "Error: Can not translate aa to codon!"
  | Except.ok (some cs) => Except.ok (joinComma cs)
  | Except.error e => Except.error e

/-- The local variables `aa_single`, `aa_three`, `codon` of the loop in
`main`: `none` models a Python local not yet assigned. -/
structure LoopState where
  aa_single : Option String
  aa_three : Option String
  codon : Option String
deriving DecidableEq

/-- The classification test of `main`:
`all(x in ("A", "C", "T", "G", "U") for x in query.upper())`. -/
def isNucToken (query : String) : Bool :=
  (pyUpper query).data.all
    (fun x => x == 'A' || x == 'C' || x == 'T' || x == 'G' || x == 'U')

/-- The codon branch of the loop in `main`: uppercase the query, translate
it to an amino acid, and record the row; the codon field of the row is the
uppercased input itself. -/
def codonBranch (query : String) :
    Except String (LoopState × (String × String × String)) :=
  let codon := pyUpper query
  match translate_aa codon with
  | Except.error e => Except.error e
  | Except.ok p =>
    Except.ok (⟨some p.1, some p.2, some codon⟩, (p.1, p.2, codon))

/-- One iteration of the loop in `main`: classify the query, run the
matching branch, then append `(aa_single, aa_three, codon)`. A branch that
validates its token assigns all three locals; an amino-acid-path token that
fails validation leaves the other locals as they were, and appending an
unassigned local raises (UnboundLocalError), modelled as an error. -/
def step (st : LoopState) (query : String) :
    Except String (LoopState × (String × String × String)) :=
  if isNucToken query then
    codonBranch query
  else
    let st2 : Except String LoopState :=
      if query.length == 1 then
        let s := pyUpper query
        if single_letter.contains s then
          match translate_codon s, convert_aa s with
          | Except.ok c, Except.ok t => Except.ok ⟨some s, some t, some c⟩
          | Except.error e, _ => Except.error e
          | _, Except.error e => Except.error e
        else
          Except.ok { st with aa_single := some s }
      else if query.length == 3 then
        let t := pyTitle query
        if three_letter.contains t then
          match translate_codon t, convert_aa t with
          | Except.ok c, Except.ok s => Except.ok ⟨some s, some t, some c⟩
          | Except.error e, _ => Except.error e
          | _, Except.error e => Except.error e
        else
          Except.ok { st with aa_three := some t }
      else
        Except.ok st
    match st2 with
    | Except.error e => Except.error e
    | Except.ok st2 =>
      match st2.aa_single, st2.aa_three, st2.codon with
      | some s, some t, some c => Except.ok (st2, (s, t, c))
      | _, _, _ => Except.error "UnboundLocalError: local variable referenced before assignment"

/-- The loop of `main` over the comma-separated queries, threading the
locals and collecting the result rows in input order. -/
def runLoop : LoopState → List String → Except String (List (String × String × String))
  | _, [] => Except.ok []
  | st, q :: qs =>
    match step st q with
    | Except.error e => Except.error e
    | Except.ok (st2, r) =>
      match runLoop st2 qs with
      | Except.error e => Except.error e
      | Except.ok rest => Except.ok (r :: rest)

/-- `main(input_string)`: split on commas, process every token, then print
the header line and one tab-joined row per token. The returned list is the
sequence of stdout lines; an error models the message on stderr followed by
a non-zero exit, before anything is printed. -/
def main (input_string : String) : Except String (List String) :=
  match runLoop ⟨none, none, none⟩ (pySplitComma input_string) with
  | Except.error e => Except.error e
  | Except.ok results =>
    Except.ok ("Single\tThree\tCodon(s)" ::
      results.map (fun r => r.1 ++ "\t" ++ r.2.1 ++ "\t" ++ r.2.2))

end CodonAA

namespace Hgvsp

/-- The `single_letter` list local to `aa_convert` in `hgvsp_short2long.py`. -/
def single_letter : List String :=
  "ACDEFGHIKLMNPQRSTVWY*".data.map (fun c => String.mk [c])

/-- The `three_letter` list local to `aa_convert` in `hgvsp_short2long.py`. -/
def three_letter : List String :=
  CodonAA.pySplitSpace ("Ala Cys Asp Glu Phe Gly His Ile Lys Leu Met Asn Pro Gln "
    ++ "Arg Ser Thr Val Trp Tyr Ter")

/-- `aa_convert` from `hgvsp_short2long.py`: `mapping[query.title()]`; a
missing key raises KeyError, modelled by `none`. -/
def aa_convert (query : String) : Option String :=
  CodonAA.dictGet (single_letter.zip three_letter) (CodonAA.pyTitle query)

end Hgvsp

namespace CodonAA

/-- A codon translates to a unique amino-acid pair whose single-letter code
re-converts to the three-letter code, and whose codon list contains the
codon. -/
def codonRoundTrip (c : String) : Bool :=
  match translate_aa c with
  | Except.error _ => false
  | Except.ok (s, t) =>
    (match convert_aa s with
     | Except.ok t2 => t2 == t
     | Except.error _ => false) &&
    (match lookupGet s with
     | some cs => cs.contains c
     | none => false)

/-- Applying `convert_aa` twice to a single-letter code returns it. -/
def aaRoundTrip (a : String) : Bool :=
  match convert_aa a with
  | Except.error _ => false
  | Except.ok t =>
    match convert_aa t with
    | Except.ok a2 => a2 == a
    | Except.error _ => false

/-- The two scripts agree on the single-letter to three-letter mapping. -/
def aaAgree (a : String) : Bool :=
  match Hgvsp.aa_convert a, convert_aa a with
  | some x, Except.ok y => x == y
  | _, _ => false

/-- C1: for every one of the 64 codons `c` over A, C, G, T,
`translate_aa c` succeeds and returns exactly one amino acid, as a
single-letter and a matching three-letter code, and the codon list that
the amino-acid-to-codon direction returns for that amino acid contains
`c`. -/
theorem C1_codon_table_total_roundtrip : ∀ c ∈ codons, codonRoundTrip c = true := by
  decide

/-- Witness for C1 at the concrete codon ATG. -/
theorem C1_witness : codonRoundTrip "ATG" = true :=
  C1_codon_table_total_roundtrip "ATG" (by decide)

/-- C2: for every one of the 21 valid single-letter amino-acid codes `a`,
`convert_aa (convert_aa a) = a`: the single-to-three-letter mapping and its
inverse compose to the identity. -/
theorem C2_convert_aa_involutive : ∀ a ∈ single_letter, aaRoundTrip a = true := by
  decide

/-- Witness for C2 at the concrete code for the stop symbol. -/
theorem C2_witness : aaRoundTrip "*" = true :=
  C2_convert_aa_involutive "*" (by decide)

/-- C9: `aa_convert` of `hgvsp_short2long.py` and `convert_aa` of
`codon_aa_converter.py` return the same three-letter code on every one of
the 21 valid single-letter codes. -/
theorem C9_scripts_agree : ∀ a ∈ single_letter, aaAgree a = true := by
  decide

/-- Witness for C9 at the concrete code A. -/
theorem C9_witness : aaAgree "A" = true :=
  C9_scripts_agree "A" (by decide)

/-- For a codon token the emitted row of `main` echoes the uppercased input
itself as the codon field, next to the two amino-acid codes. -/
def codonRowEcho (c : String) : Bool :=
  match translate_aa c, step ⟨none, none, none⟩ c with
  | Except.ok (s, t), Except.ok (_, r) => r == (s, t, c)
  | _, _ => false

/-- C3 as stated is false: for the codon input TTT the returned codon field
is the input codon TTT alone, while the full codon set of the resulting
amino acid F is TTT,TTC. -/
theorem C3_counterexample :
    main "TTT" = Except.ok ["Single\tThree\tCodon(s)", "F\tPhe\tTTT"]
    ∧ lookupGet "F" = some ["TTT", "TTC"]
    ∧ joinComma ["TTT", "TTC"] ≠ "TTT" :=
  ⟨rfl, rfl, by decide⟩

/-- C3 (amended): for every input token classified as a codon, `main`
returns the single-letter code, the three-letter code, and the uppercased
input codon itself (not the full codon set of the amino acid); in
particular the inputs ATG, Met and M all yield the row M, Met, ATG. -/
theorem C3_codon_row_echoes_input :
    (∀ c ∈ codons, codonRowEcho c = true)
    ∧ main "ATG" = Except.ok ["Single\tThree\tCodon(s)", "M\tMet\tATG"]
    ∧ main "Met" = Except.ok ["Single\tThree\tCodon(s)", "M\tMet\tATG"]
    ∧ main "M" = Except.ok ["Single\tThree\tCodon(s)", "M\tMet\tATG"] :=
  ⟨by decide, rfl, rfl, rfl⟩

/-- Witness for C3 at the concrete codon TGA. -/
theorem C3_witness : codonRowEcho "TGA" = true :=
  C3_codon_row_echoes_input.1 "TGA" (by decide)

/-- C4: the amino-acid path of the dispatcher loop does not guard invalid
tokens: in the batch M,XY the malformed token XY silently reuses the loop
locals of the previous token and `main` emits a duplicated row with exit
status 0, although `convert_aa` declares the length error the claim
expects; in the batch M,ATX the token ATX likewise yields a mixed stale
row M, Atx, ATG. -/
theorem C4_dispatcher_stale_row_bug :
    main "M,XY" = Except.ok
      ["Single\tThree\tCodon(s)", "M\tMet\tATG", "M\tMet\tATG"]
    ∧ convert_aa "XY" = Except.error
        "Error: the query does not seem to be an appropriate amino acid string."
    ∧ main "M,ATX" = Except.ok
      ["Single\tThree\tCodon(s)", "M\tMet\tATG", "M\tAtx\tATG"] :=
  ⟨rfl, rfl, rfl⟩

/-- The codon list stored for an amino acid equals the codons whose table
entry is that amino acid, in genetic-code-table iteration order. -/
def codonsInTableOrder (a : String) : Bool :=
  lookupGet a == some (codons.filter (fun c => dictGet codon_table c == some a))

/-- C5: the stop symbol (as * or Ter) maps to exactly TAA, TAG, TGA and M
maps to exactly ATG; for every amino acid the codon list follows
genetic-code-table iteration order (T, C, A, G composed positionally), as
the list for S shows: it is not alphabetically sorted. -/
theorem C5_codon_lists_in_table_order :
    (∀ a ∈ single_letter, codonsInTableOrder a = true)
    ∧ translate_codon "*" = Except.ok "TAA,TAG,TGA"
    ∧ translate_codon "Ter" = Except.ok "TAA,TAG,TGA"
    ∧ translate_codon "M" = Except.ok "ATG"
    ∧ lookupGet "*" = some ["TAA", "TAG", "TGA"]
    ∧ lookupGet "M" = some ["ATG"]
    ∧ lookupGet "S" = some ["TCT", "TCC", "TCA", "TCG", "AGT", "AGC"]
    ∧ (["TCT", "TCC", "TCA", "TCG", "AGT", "AGC"] : List String) ≠
        ["AGC", "AGT", "TCA", "TCC", "TCG", "TCT"] :=
  ⟨by decide, rfl, rfl, rfl, rfl, rfl, rfl, by decide⟩

/-- Witness for C5 at the concrete amino acid W. -/
theorem C5_witness : codonsInTableOrder "W" = true :=
  C5_codon_lists_in_table_order.1 "W" (by decide)

/-- C6: a token made only of the letters A, C, G, T, U (case-insensitive)
is always dispatched to the codon branch, never to the amino-acid
conversion branch, whatever the loop state; in particular the single
letters A, C, G, T, which are also valid amino-acid codes, go to the codon
lookup and fail there. -/
theorem C6_codon_interpretation_preferred :
    (∀ (st : LoopState) (q : String), isNucToken q = true → step st q = codonBranch q)
    ∧ main "A" = Except.error "Error: Can not translate codon to AA!"
    ∧ main "C" = Except.error "Error: Can not translate codon to AA!"
    ∧ main "G" = Except.error "Error: Can not translate codon to AA!"
    ∧ main "T" = Except.error "Error: Can not translate codon to AA!" := by
  refine ⟨?_, rfl, rfl, rfl, rfl⟩
  intro st q h
  simp [step, h]

/-- Witness for C6 at the concrete token acg and the empty loop state. -/
theorem C6_witness : step ⟨none, none, none⟩ "acg" = codonBranch "acg" :=
  C6_codon_interpretation_preferred.1 ⟨none, none, none⟩ "acg" (by decide)

/-- Replacing U by T twice is the same as doing it once, per character. -/
theorem replaceUT_char_idem (c : Char) :
    (if (if c == 'U' then 'T' else c) == 'U' then 'T' else (if c == 'U' then 'T' else c))
      = if c == 'U' then 'T' else c := by
  by_cases h : c == 'U'
  · simp only [if_pos h]
    rfl
  · simp only [if_neg h]

/-- Replacing U by T twice is the same as doing it once. -/
theorem replaceUT_list_idem (l : List Char) :
    (l.map fun c => if c == 'U' then 'T' else c).map (fun c => if c == 'U' then 'T' else c)
      = l.map fun c => if c == 'U' then 'T' else c := by
  induction l with
  | nil => rfl
  | cons c cs ih => simp only [List.map_cons, ih, replaceUT_char_idem]

/-- `pyReplaceUT` is idempotent. -/
theorem pyReplaceUT_idem (s : String) : pyReplaceUT (pyReplaceUT s) = pyReplaceUT s := by
  unfold pyReplaceUT
  exact congrArg String.mk (replaceUT_list_idem s.data)

/-- `translate_aa` only sees the U-to-T normalized query. -/
theorem translate_aa_replaceUT (q : String) :
    translate_aa (pyReplaceUT q) = translate_aa q := by
  unfold translate_aa
  rw [pyReplaceUT_idem]

/-- C7: `translate_aa` on the RNA form of a codon behaves exactly as on the
DNA form: every U is replaced by T before the table lookup, and AUG gives
the same result as ATG, namely M, Met. -/
theorem C7_rna_equals_dna :
    (∀ q : String, translate_aa (pyReplaceUT q) = translate_aa q)
    ∧ pyReplaceUT "AUG" = "ATG"
    ∧ translate_aa "AUG" = Except.ok ("M", "Met")
    ∧ translate_aa "ATG" = Except.ok ("M", "Met") :=
  ⟨translate_aa_replaceUT, rfl, rfl, rfl⟩

/-- A token every branch of the loop fully validates: an all-nucleotide
token whose normalized form is in the codon table, a single-letter code in
`single_letter`, or a three-letter code in `three_letter`. -/
def validToken (q : String) : Bool :=
  if isNucToken q then
    match translate_aa (pyUpper q) with
    | Except.ok _ => true
    | Except.error _ => false
  else if q.length == 1 then single_letter.contains (pyUpper q)
  else if q.length == 3 then three_letter.contains (pyTitle q)
  else false

/-- The row the loop appends for a token, computed from the empty loop
state. -/
def rowTriple (q : String) : String × String × String :=
  match step ⟨none, none, none⟩ q with
  | Except.ok (_, r) => r
  | Except.error _ => ("", "", "")

/-- Both calls of the amino-acid branch of the loop succeed on the code. -/
def aaPathOk (x : String) : Bool :=
  match translate_codon x, convert_aa x with
  | Except.ok _, Except.ok _ => true
  | _, _ => false

/-- Every single-letter code passes the amino-acid branch. -/
theorem single_letter_path_ok : ∀ s ∈ single_letter, aaPathOk s = true := by
  decide

/-- Every three-letter code passes the amino-acid branch. -/
theorem three_letter_path_ok : ∀ t ∈ three_letter, aaPathOk t = true := by
  decide

/-- On a valid token the loop body succeeds, assigns all three locals, and
appends a row that does not depend on the incoming loop state. -/
theorem step_valid (q : String) (h : validToken q = true) :
    ∀ st, step st q =
      Except.ok (⟨some (rowTriple q).1, some (rowTriple q).2.1, some (rowTriple q).2.2⟩,
        rowTriple q) := by
  unfold validToken at h
  by_cases hn : isNucToken q
  · rw [if_pos hn] at h
    cases htr : translate_aa (pyUpper q) with
    | error e => rw [htr] at h; exact absurd h (by simp)
    | ok p =>
      have hstep : ∀ st, step st q =
          Except.ok (⟨some p.1, some p.2, some (pyUpper q)⟩, (p.1, p.2, pyUpper q)) := by
        intro st
        simp [step, hn, codonBranch, htr]
      have hrow : rowTriple q = (p.1, p.2, pyUpper q) := by
        unfold rowTriple
        rw [hstep ⟨none, none, none⟩]
      intro st
      rw [hstep st, hrow]
  · rw [if_neg hn] at h
    by_cases h1 : q.length == 1
    · rw [if_pos h1] at h
      have hm : pyUpper q ∈ single_letter := List.elem_iff.mp h
      have hok := single_letter_path_ok (pyUpper q) hm
      unfold aaPathOk at hok
      cases hc : translate_codon (pyUpper q) with
      | error e => rw [hc] at hok; exact absurd hok (by simp)
      | ok c =>
        cases ht : convert_aa (pyUpper q) with
        | error e => rw [hc, ht] at hok; exact absurd hok (by simp)
        | ok t =>
          have hstep : ∀ st, step st q =
              Except.ok (⟨some (pyUpper q), some t, some c⟩, (pyUpper q, t, c)) := by
            intro st
            simp [step, hn, h1, h, hm, hc, ht]
          have hrow : rowTriple q = (pyUpper q, t, c) := by
            unfold rowTriple
            rw [hstep ⟨none, none, none⟩]
          intro st
          rw [hstep st, hrow]
    · rw [if_neg h1] at h
      by_cases h3 : q.length == 3
      · rw [if_pos h3] at h
        have hm : pyTitle q ∈ three_letter := List.elem_iff.mp h
        have hok := three_letter_path_ok (pyTitle q) hm
        unfold aaPathOk at hok
        cases hc : translate_codon (pyTitle q) with
        | error e => rw [hc] at hok; exact absurd hok (by simp)
        | ok c =>
          cases ht : convert_aa (pyTitle q) with
          | error e => rw [hc, ht] at hok; exact absurd hok (by simp)
          | ok s =>
            have hstep : ∀ st, step st q =
                Except.ok (⟨some s, some (pyTitle q), some c⟩, (s, pyTitle q, c)) := by
              intro st
              simp [step, hn, h1, h3, h, hm, hc, ht]
            have hrow : rowTriple q = (s, pyTitle q, c) := by
              unfold rowTriple
              rw [hstep ⟨none, none, none⟩]
            intro st
            rw [hstep st, hrow]
      · rw [if_neg h3] at h
        exact absurd h (by simp)

/-- On a list of valid tokens the loop succeeds from any state and returns
one row per token, in input order. -/
theorem runLoop_valid (ts : List String) (h : ∀ t ∈ ts, validToken t = true) :
    ∀ st, runLoop st ts = Except.ok (ts.map rowTriple) := by
  induction ts with
  | nil => intro st; rfl
  | cons q qs ih =>
    intro st
    have hq := step_valid q (h q (List.mem_cons_self q qs))
    have hqs := ih (fun t ht => h t (List.mem_cons_of_mem q ht))
    simp [runLoop, hq st, hqs]

/-- On a comma-separated input whose tokens are all valid, `main` prints
the header line followed by the loop's own row for each token, in input
order. -/
theorem main_valid_batch_rows (input : String)
    (h : ∀ t ∈ pySplitComma input, validToken t = true) :
    main input = Except.ok ("Single\tThree\tCodon(s)" ::
      (pySplitComma input).map (fun t =>
        (rowTriple t).1 ++ "\t" ++ (rowTriple t).2.1 ++ "\t" ++ (rowTriple t).2.2)) := by
  unfold main
  rw [runLoop_valid (pySplitComma input) h ⟨none, none, none⟩]
  simp [List.map_map, Function.comp]

/-- The content of the row for a valid token, spelled out per branch: for a
codon token, the two amino-acid codes and the uppercased input codon
itself; for a single- or three-letter amino-acid token, the single-letter
code, the three-letter code, and the comma-joined codon list. -/
def rowSpec (q : String) : String × String × String :=
  if isNucToken q then
    match translate_aa (pyUpper q) with
    | Except.ok p => (p.1, p.2, pyUpper q)
    | Except.error _ => ("", "", "")
  else if q.length == 1 then
    match convert_aa (pyUpper q), translate_codon (pyUpper q) with
    | Except.ok three, Except.ok cs => (pyUpper q, three, cs)
    | _, _ => ("", "", "")
  else if q.length == 3 then
    match convert_aa (pyTitle q), translate_codon (pyTitle q) with
    | Except.ok s, Except.ok cs => (s, pyTitle q, cs)
    | _, _ => ("", "", "")
  else ("", "", "")

/-- On a valid token the row the loop appends is exactly the row content
spelled out by `rowSpec`. -/
theorem rowTriple_eq_rowSpec (q : String) (h : validToken q = true) :
    rowTriple q = rowSpec q := by
  unfold validToken at h
  by_cases hn : isNucToken q
  · rw [if_pos hn] at h
    cases htr : translate_aa (pyUpper q) with
    | error e => rw [htr] at h; exact absurd h (by simp)
    | ok p =>
      have hstep : step ⟨none, none, none⟩ q =
          Except.ok (⟨some p.1, some p.2, some (pyUpper q)⟩, (p.1, p.2, pyUpper q)) := by
        simp [step, hn, codonBranch, htr]
      unfold rowTriple
      rw [hstep]
      simp [rowSpec, hn, htr]
  · rw [if_neg hn] at h
    by_cases h1 : q.length == 1
    · rw [if_pos h1] at h
      have hm : pyUpper q ∈ single_letter := List.elem_iff.mp h
      have hok := single_letter_path_ok (pyUpper q) hm
      unfold aaPathOk at hok
      cases hc : translate_codon (pyUpper q) with
      | error e => rw [hc] at hok; exact absurd hok (by simp)
      | ok c =>
        cases ht : convert_aa (pyUpper q) with
        | error e => rw [hc, ht] at hok; exact absurd hok (by simp)
        | ok t =>
          have hstep : step ⟨none, none, none⟩ q =
              Except.ok (⟨some (pyUpper q), some t, some c⟩, (pyUpper q, t, c)) := by
            simp [step, hn, h1, h, hm, hc, ht]
          unfold rowTriple
          rw [hstep]
          simp [rowSpec, hn, h1, hc, ht]
    · rw [if_neg h1] at h
      by_cases h3 : q.length == 3
      · rw [if_pos h3] at h
        have hm : pyTitle q ∈ three_letter := List.elem_iff.mp h
        have hok := three_letter_path_ok (pyTitle q) hm
        unfold aaPathOk at hok
        cases hc : translate_codon (pyTitle q) with
        | error e => rw [hc] at hok; exact absurd hok (by simp)
        | ok c =>
          cases ht : convert_aa (pyTitle q) with
          | error e => rw [hc, ht] at hok; exact absurd hok (by simp)
          | ok s =>
            have hstep : step ⟨none, none, none⟩ q =
                Except.ok (⟨some s, some (pyTitle q), some c⟩, (s, pyTitle q, c)) := by
              simp [step, hn, h1, h3, h, hm, hc, ht]
            unfold rowTriple
            rw [hstep]
            simp [rowSpec, hn, h1, h3, hc, ht]
      · rw [if_neg h3] at h
        exact absurd h (by simp)

/-- C8 as stated is false: in the batch M,TTT of valid tokens the row for
the codon token TTT carries the input codon TTT as its codon field, not the
comma-joined codon list TTT,TTC of the amino acid F. -/
theorem C8_counterexample :
    main "M,TTT" = Except.ok
      ["Single\tThree\tCodon(s)", "M\tMet\tATG", "F\tPhe\tTTT"]
    ∧ translate_codon "F" = Except.ok "TTT,TTC"
    ∧ ("F\tPhe\tTTT" : String) ≠ "F\tPhe\t" ++ "TTT,TTC" :=
  ⟨rfl, rfl, by decide⟩

/-- C8 (amended): on a comma-separated input whose tokens are all valid,
`main` prints the tab-separated header line followed by exactly one
tab-joined row per token, in the order the tokens appear in the input;
each row holds the single-letter code, the three-letter code, and a codon
field that is the comma-joined codon list for an amino-acid token but the
uppercased input codon itself for a codon token. -/
theorem C8_batch_row_content_in_order (input : String)
    (h : ∀ t ∈ pySplitComma input, validToken t = true) :
    main input = Except.ok ("Single\tThree\tCodon(s)" ::
      (pySplitComma input).map (fun t =>
        (rowSpec t).1 ++ "\t" ++ (rowSpec t).2.1 ++ "\t" ++ (rowSpec t).2.2)) := by
  rw [main_valid_batch_rows input h]
  have hmap : (pySplitComma input).map (fun t =>
        (rowTriple t).1 ++ "\t" ++ (rowTriple t).2.1 ++ "\t" ++ (rowTriple t).2.2)
      = (pySplitComma input).map (fun t =>
        (rowSpec t).1 ++ "\t" ++ (rowSpec t).2.1 ++ "\t" ++ (rowSpec t).2.2) := by
    refine List.map_congr_left (fun t ht => ?_)
    rw [rowTriple_eq_rowSpec t (h t ht)]
  rw [hmap]

/-- Witness for C8 at the concrete batch Met,TGA, mixing an amino-acid
token and a codon token. -/
theorem C8_witness :
    main "Met,TGA" = Except.ok ("Single\tThree\tCodon(s)" ::
      (pySplitComma "Met,TGA").map (fun t =>
        (rowSpec t).1 ++ "\t" ++ (rowSpec t).2.1 ++ "\t" ++ (rowSpec t).2.2)) :=
  C8_batch_row_content_in_order "Met,TGA" (by decide)

/-- C10: the empty token passes the vacuous all-nucleotides test, so it is
classified as a codon, the codon-table lookup fails, and `main` terminates
with the codon error before printing anything, whatever the loop state. -/
theorem C10_empty_token_codon_error :
    isNucToken "" = true
    ∧ translate_aa "" = Except.error "Error: Can not translate codon to AA!"
    ∧ main "" = Except.error "Error: Can not translate codon to AA!"
    ∧ (∀ st : LoopState, step st "" = Except.error "Error: Can not translate codon to AA!") :=
  ⟨rfl, rfl, rfl, fun _ => rfl⟩

end CodonAA
